import Mathlib

/-!
Shallow embedding of the Instagram auto-DM pipeline (Go sources
`main.go` and the router variant) and proofs about its event-to-delivery
behaviour: keyword matching, deduplication, the retry controller, the
dispatcher's response classification, the webhook handlers and the
persistence-log upsert.

Strings are modelled by Lean `String`; the Go string helpers
(`strings.ToLower`, `strings.Contains`, `strings.Split`,
`strings.TrimSpace`) are re-implemented over `List Char` so that every
definition is kernel-computable.  Durations are modelled in nanoseconds:
the backoff computation `RetryBackoffBase * time.Duration(1<<uint(attempt-1))`
is carried out with two's-complement int64 wrap-around (`wrap64`), and
`time.Sleep`'s clamping of negative and zero durations to an immediate
return is modelled by `Int.toNat`.  The database table `dm_logs` is
modelled as a list of
records, and the SQL `INSERT ... ON CONFLICT (user_id, post_id) DO
UPDATE` as a pure function on that list.
-/

namespace AutoDM

/-- Go `strings.ToLower` (ASCII model), applied character-wise. -/
def goToLower (s : String) : String :=
  ⟨s.data.map Char.toLower⟩

/-- Whether `sub` occurs at the start of `s` (helper for substring search). -/
def isPrefixOfChars : List Char → List Char → Bool
  | [], _ => true
  | _ :: _, [] => false
  | a :: as, b :: bs => a == b && isPrefixOfChars as bs

/-- Whether `sub` occurs somewhere in `s` (helper for `goContains`). -/
def containsSubChars (sub : List Char) : List Char → Bool
  | [] => isPrefixOfChars sub []
  | c :: rest => isPrefixOfChars sub (c :: rest) || containsSubChars sub rest

/-- Go `strings.Contains s sub`. -/
def goContains (s sub : String) : Bool :=
  containsSubChars sub.data s.data

/-- Go `strings.Split s ","` over the character list. -/
def splitCommaChars : List Char → List (List Char)
  | [] => [[]]
  | c :: rest =>
    let r := splitCommaChars rest
    if c == ',' then [] :: r
    else
      match r with
      | [] => [[c]]
      | h :: t => (c :: h) :: t

/-- Go `strings.Split s ","`. -/
def goSplitComma (s : String) : List String :=
  (splitCommaChars s.data).map (fun l => ⟨l⟩)

/-- Whitespace characters trimmed by Go `strings.TrimSpace` (ASCII model). -/
def isSpaceChar (c : Char) : Bool :=
  c == ' ' || c == '\t' || c == '\n' || c == '\r'

/-- Go `strings.TrimSpace`. -/
def goTrimSpace (s : String) : String :=
  ⟨((s.data.dropWhile isSpaceChar).reverse.dropWhile isSpaceChar).reverse⟩

/-- Keyword derivation in `loadConfig`: split the `KEYWORDS` environment
value on commas, then lower-case and trim each element
(`strings.TrimSpace(strings.ToLower(keywords[i]))`). -/
def keywordsFromEnv (raw : String) : List String :=
  (goSplitComma raw).map (fun k => goTrimSpace (goToLower k))

/-- Keyword loop of `processComment`: lower-case the comment text and test
each configured keyword for substring containment. -/
def hasKeyword (keywords : List String) (text : String) : Bool :=
  keywords.any (fun kw => goContains (goToLower text) kw)

/-- The commenting user (`User` in the Go source). -/
structure User where
  id : String
  username : String
deriving DecidableEq

/-- A normalized comment event (`CommentData` in the Go source). -/
structure CommentData where
  id : String
  mediaId : String
  text : String
  fromUser : User
deriving DecidableEq

/-- A queued DM job (`DMJob` in the Go source); `timestamp` models
`time.Now()` at enqueue time. -/
structure DMJob where
  userId : String
  postId : String
  commentId : String
  text : String
  username : String
  timestamp : Nat
deriving DecidableEq

/-- One row of the `dm_logs` table. `retryCount` starts at the column
default 0 on insert; `sentAt` models the `sent_at` timestamp. -/
structure DMLogRecord where
  userId : String
  postId : String
  commentId : String
  status : String
  retryCount : Nat
  errorMessage : String
  sentAt : Nat
deriving DecidableEq

/-- The `UNIQUE(user_id, post_id)` key predicate on a row. -/
def keyMatches (r : DMLogRecord) (userId postId : String) : Bool :=
  r.userId == userId && r.postId == postId

/-- The upsert `logDM`: `INSERT INTO dm_logs ... ON CONFLICT (user_id,
post_id) DO UPDATE SET retry_count = retry_count + 1, status = $4,
error_message = $5, sent_at = CURRENT_TIMESTAMP`.  On insert,
`retry_count` takes its column default 0. -/
def logDM (table : List DMLogRecord) (job : DMJob) (status errMsg : String)
    (now : Nat) : List DMLogRecord :=
  if table.any (fun r => keyMatches r job.userId job.postId) then
    table.map (fun r =>
      if keyMatches r job.userId job.postId then
        { r with retryCount := r.retryCount + 1, status := status,
                 errorMessage := errMsg, sentAt := now }
      else r)
  else
    table ++ [⟨job.userId, job.postId, job.commentId, status, 0, errMsg, now⟩]

/-- The duplicate check `isDuplicate`: `SELECT COUNT(*) FROM dm_logs WHERE user_id = $1 AND
post_id = $2`, then `count > 0`. -/
def isDuplicate (table : List DMLogRecord) (userId postId : String) : Bool :=
  decide (0 < table.countP (fun r => keyMatches r userId postId))

/-- The job constructed by `processComment` on admission. -/
def mkJob (c : CommentData) (now : Nat) : DMJob :=
  ⟨c.fromUser.id, c.mediaId, c.id, c.text, c.fromUser.username, now⟩

/-- The comment processor `processComment`: keyword gate, then duplicate gate, then enqueue.
The returned list is what is sent to `dmQueue` (empty or a single job);
the function performs no write to `dm_logs`. -/
def processComment (keywords : List String) (table : List DMLogRecord)
    (c : CommentData) (now : Nat) : List DMJob :=
  if !(hasKeyword keywords c.text) then []
  else if isDuplicate table c.fromUser.id c.mediaId then []
  else [mkJob c now]

/-- Reinterpretation of an integer as a two's-complement 64-bit value:
reduce modulo `2^64`, then pick the signed representative.  Go's int64
arithmetic (`time.Duration` included) wraps this way on overflow. -/
def wrap64 (x : Int) : Int :=
  if x % 2 ^ 64 < 2 ^ 63 then x % 2 ^ 64 else x % 2 ^ 64 - 2 ^ 64

/-- Go `1 << k` at type `time.Duration` (int64): `2^k` reinterpreted in
int64, so `-2^63` at `k = 63` and 0 from `k = 64` on. -/
def goShl1 (k : Nat) : Int := wrap64 (2 ^ k)

/-- The sleep performed at the top of `sendDMWithRetry`'s loop body, in
nanoseconds: no sleep before attempt 0; before every later attempt,
`config.RetryBackoffBase * time.Duration(1<<uint(attempt-1))` computed
with int64 wrap-around, clamped at 0 because `time.Sleep` returns
immediately on a negative or zero duration. -/
def backoffDelay (b : Int) (attempt : Nat) : Nat :=
  if attempt = 0 then 0 else (wrap64 (b * goShl1 (attempt - 1))).toNat

/-- The loop of `sendDMWithRetry`, unrolled on the number of remaining
attempts.  `dispatch i` is the outcome of `sendDM` on the `i`-th attempt
(`none` = success, `some e` = the error).  Returns the final result
(`none` on success, `some lastErr` when all attempts fail) paired with
the list of sleeps performed, one entry per attempt actually made. -/
def retryGo (dispatch : Nat → Option String) (b : Int) :
    Nat → Nat → Option String → Option String × List Nat
  | _, 0, last => (last, [])
  | attempt, remaining + 1, _ =>
    let d := backoffDelay b attempt
    match dispatch attempt with
    | none => (none, [d])
    | some e =>
      let p := retryGo dispatch b (attempt + 1) remaining (some e)
      (p.1, d :: p.2)

/-- The retry controller `sendDMWithRetry`: `for attempt := 0; attempt <= config.MaxRetries;
attempt++`, returning on the first `nil` error, else the last error. -/
def sendDMWithRetry (maxRetries : Nat) (b : Int) (dispatch : Nat → Option String) :
    Option String × List Nat :=
  retryGo dispatch b 0 (maxRetries + 1) none

/-- The `error.code` / `error.error_subcode` pair that the router
variant's `sendDM` extracts from a non-2xx response body (absent when
the body does not parse to a JSON object with an `error` object). -/
structure PlatformError where
  code : Option Int
  errorSubcode : Option Int
deriving DecidableEq

/-- Response classification in `main.go`'s `sendDM`: any status other
than 200 becomes `fmt.Errorf("API error (status %d): %s", ...)`. -/
def sendDM_v1 (statusCode : Nat) (body : String) : Option String :=
  if statusCode != 200 then
    some ("API error (status " ++ toString statusCode ++ "): " ++ body)
  else
    none

/-- Response classification in the router variant's `sendDM`: statuses
other than 200 and 201 are failures; a body carrying `error.code = 10`
and `error.error_subcode = 2534022` yields the window-expired error,
every other failure the generic `api_error_<status>` error. -/
def sendDM_v2 (statusCode : Nat) (body : String)
    (platformErr : Option PlatformError) : Option String :=
  if statusCode != 200 && statusCode != 201 then
    match platformErr with
    | some pe =>
      if pe.code == some 10 && pe.errorSubcode == some 2534022 then
        some "24_hour_messaging_window_expired: User must message you first or within 24 hours"
      else
        some ("api_error_" ++ toString statusCode ++ ": " ++ body)
    | none => some ("api_error_" ++ toString statusCode ++ ": " ++ body)
  else
    none

/-- Whether the parsed body carries the window-expired code/subcode pair. -/
def isWindowExpiredErr : Option PlatformError → Bool
  | some pe => pe.code == some 10 && pe.errorSubcode == some 2534022
  | none => false

/-- One iteration of `dmWorker` on a claimed job: run
`sendDMWithRetry`, then `logDM(job, "failed", err.Error())` on error or
`logDM(job, "sent", "")` on success.  Returns the updated table and the
list of `logDM` invocations made (status, errorMessage). -/
def dmWorkerStep (maxRetries : Nat) (b : Int) (dispatch : Nat → Option String)
    (table : List DMLogRecord) (job : DMJob) (now : Nat) :
    List DMLogRecord × List (String × String) :=
  match (sendDMWithRetry maxRetries b dispatch).1 with
  | some e => (logDM table job "failed" e now, [("failed", e)])
  | none => (logDM table job "sent" "" now, [("sent", "")])

/-- A change entry of a webhook payload. -/
structure Change where
  field : String
  value : CommentData
deriving DecidableEq

/-- An entry of a webhook payload. -/
structure WebhookEntry where
  id : String
  time : Int
  changes : List Change
deriving DecidableEq

/-- A parsed webhook payload. -/
structure WebhookPayload where
  object : String
  entry : List WebhookEntry
deriving DecidableEq

/-- An HTTP response as status code and body. -/
structure HTTPResponse where
  statusCode : Nat
  body : String
deriving DecidableEq

/-- The comment-processing loop shared by both POST handlers: for each
entry, for each change whose `field` is `"comments"`, run
`processComment` on the change value.  No handler path writes to
`dm_logs`, so the table is read-only here. -/
def processEntries (keywords : List String) (table : List DMLogRecord)
    (payload : WebhookPayload) (now : Nat) : List DMJob :=
  payload.entry.flatMap (fun e =>
    e.changes.flatMap (fun ch =>
      if ch.field == "comments" then processComment keywords table ch.value now
      else []))

/-- The handler `handleWebhookEvent` of main.go (POST path), parameterized by the
outcome of reading/unmarshalling the body: on parse failure it calls
`http.Error(w, "Bad request", http.StatusBadRequest)`, otherwise it
processes the entries and answers `200 EVENT_RECEIVED`.  Returns the
response, the jobs sent to `dmQueue`, and the `dm_logs` table it leaves
behind (unchanged: no path writes). -/
def handleWebhookEvent (keywords : List String) (table : List DMLogRecord)
    (parsed : Except String WebhookPayload) (now : Nat) :
    HTTPResponse × List DMJob × List DMLogRecord :=
  match parsed with
  | .error _ => (⟨400, "Bad request\n"⟩, [], table)
  | .ok payload =>
    (⟨200, "EVENT_RECEIVED"⟩, processEntries keywords table payload now, table)

/-- The router variant's `webhookPOSTHandler`: on decode failure it logs
and answers `200` with an empty body; otherwise it walks the generic map
the same way (`entry` → `changes` → `field == "comments"` →
`processCommentFromMap` → `processComment`) and answers `200`. -/
def webhookPOSTHandler (keywords : List String) (table : List DMLogRecord)
    (parsed : Except String WebhookPayload) (now : Nat) :
    HTTPResponse × List DMJob × List DMLogRecord :=
  match parsed with
  | .error _ => (⟨200, ""⟩, [], table)
  | .ok payload =>
    (⟨200, ""⟩, processEntries keywords table payload now, table)

/-- The handler `handleWebhookVerification` of main.go: challenge echo on
`mode == "subscribe" && token == config.VerifyToken`, otherwise
`http.Error(w, "Verification failed", http.StatusForbidden)` (which
writes the message and a newline as the body). -/
def handleWebhookVerification (verifyToken mode token challenge : String) :
    HTTPResponse :=
  if mode == "subscribe" && token == verifyToken then ⟨200, challenge⟩
  else ⟨403, "Verification failed\n"⟩

/-- The router variant's `webhookGETHandler`: challenge echo on
`mode == "subscribe" && token != "" && token == config.VerifyToken`,
otherwise a bare `403` with no body. -/
def webhookGETHandler (verifyToken mode token challenge : String) :
    HTTPResponse :=
  if mode == "subscribe" && token != "" && token == verifyToken then
    ⟨200, challenge⟩
  else ⟨403, ""⟩

/-- One upsert call to `logDM`, for stating properties of sequences of
upserts. -/
structure UpsertOp where
  job : DMJob
  status : String
  errMsg : String
  now : Nat

/-- Apply a sequence of `logDM` upserts to the table, in order. -/
def applyUpserts (table : List DMLogRecord) (ops : List UpsertOp) :
    List DMLogRecord :=
  ops.foldl (fun t op => logDM t op.job op.status op.errMsg op.now) table

/-- The schema's `UNIQUE(user_id, post_id)` invariant: no two rows share
a (userId, postId) key. -/
def atMostOnePerKey (table : List DMLogRecord) : Prop :=
  ∀ u p, table.countP (fun r => keyMatches r u p) ≤ 1

/-! ### Helper lemmas about the persistence-log upsert -/

/-- A list with at most one element satisfying `p` has no two distinct
members satisfying `p`. -/
theorem countP_le_one_unique {α : Type _} {p : α → Bool} {r r' : α} :
    ∀ {l : List α}, l.countP p ≤ 1 → r ∈ l → r' ∈ l →
      p r = true → p r' = true → r = r' := by
  intro l
  induction l with
  | nil => intro _ hr; cases hr
  | cons a t ih =>
    intro h hr hr' hpr hpr'
    rw [List.countP_cons] at h
    rcases List.mem_cons.mp hr with rfl | hrt
    · rcases List.mem_cons.mp hr' with rfl | hr't
      · rfl
      · rw [if_pos hpr] at h
        have ht : t.countP p = 0 := by omega
        exact absurd hpr' (List.countP_eq_zero.mp ht r' hr't)
    · rcases List.mem_cons.mp hr' with rfl | hr't
      · rw [if_pos hpr'] at h
        have ht : t.countP p = 0 := by omega
        exact absurd hpr (List.countP_eq_zero.mp ht r hrt)
      · exact ih (le_trans (Nat.le_add_right _ _) h) hrt hr't hpr hpr'

/-- The conflict-branch update does not touch `userId` or `postId`. -/
theorem keyMatches_update (r : DMLogRecord) (s e : String) (n : Nat)
    (u p : String) :
    keyMatches { r with
                  retryCount := r.retryCount + 1,
                  status := s,
                  errorMessage := e,
                  sentAt := n } u p
      = keyMatches r u p := rfl

/-- The conflict-branch update leaves the (userId, postId) key of every
row unchanged, so per-key row counts are unchanged. -/
theorem countP_updateMap (table : List DMLogRecord) (job : DMJob)
    (s e : String) (n : Nat) (u p : String) :
    (table.map (fun r =>
        if keyMatches r job.userId job.postId then
          { r with retryCount := r.retryCount + 1, status := s,
                   errorMessage := e, sentAt := n }
        else r)).countP (fun r => keyMatches r u p)
      = table.countP (fun r => keyMatches r u p) := by
  rw [List.countP_map]
  apply List.countP_congr
  intro r _
  simp only [Function.comp_apply]
  by_cases hk : keyMatches r job.userId job.postId = true
  · rw [if_pos hk, keyMatches_update]
  · rw [if_neg hk]

/-- The freshly inserted row matches exactly the key it was built from. -/
theorem keyMatches_newRow (job : DMJob) (s e : String) (n : Nat) (u p : String) :
    keyMatches (⟨job.userId, job.postId, job.commentId, s, 0, e, n⟩ : DMLogRecord) u p
      = (job.userId == u && job.postId == p) := rfl

/-- The upsert `logDM` preserves the `UNIQUE(user_id, post_id)` invariant. -/
theorem logDM_atMostOne (table : List DMLogRecord) (job : DMJob)
    (s e : String) (n : Nat) (h : atMostOnePerKey table) :
    atMostOnePerKey (logDM table job s e n) := by
  intro u p
  unfold logDM
  by_cases hany : table.any (fun r => keyMatches r job.userId job.postId) = true
  · rw [if_pos hany, countP_updateMap]
    exact h u p
  · rw [if_neg hany, List.countP_append]
    have hz : ∀ r ∈ table, keyMatches r job.userId job.postId = false := by
      intro r hr
      have := List.any_eq_false.mp (Bool.eq_false_iff.mpr hany) r hr
      exact Bool.eq_false_iff.mpr this
    by_cases hku : keyMatches (⟨job.userId, job.postId, job.commentId, s, 0, e, n⟩ :
        DMLogRecord) u p = true
    · have hu : u = job.userId ∧ p = job.postId := by
        rw [keyMatches_newRow] at hku
        have h1 := (Bool.and_eq_true _ _).mp hku
        exact ⟨(beq_iff_eq.mp h1.1).symm, (beq_iff_eq.mp h1.2).symm⟩
      have hzero : table.countP (fun r => keyMatches r u p) = 0 := by
        apply List.countP_eq_zero.mpr
        intro r hr
        rw [hu.1, hu.2]
        simp [hz r hr]
      simp [hzero, hku]
    · have h1 : List.countP (fun r => keyMatches r u p)
          [(⟨job.userId, job.postId, job.commentId, s, 0, e, n⟩ : DMLogRecord)] = 0 := by
        simp [List.countP_cons, hku]
      rw [h1]
      simpa using h u p

/-- After any `logDM` upsert, exactly one row carries the upserted key. -/
theorem logDM_countKey (table : List DMLogRecord) (job : DMJob)
    (s e : String) (n : Nat) (h : atMostOnePerKey table) :
    (logDM table job s e n).countP
        (fun r => keyMatches r job.userId job.postId) = 1 := by
  unfold logDM
  by_cases hany : table.any (fun r => keyMatches r job.userId job.postId) = true
  · rw [if_pos hany, countP_updateMap]
    rcases List.any_eq_true.mp hany with ⟨r, hr, hkr⟩
    have hpos : 0 < table.countP (fun r => keyMatches r job.userId job.postId) :=
      List.countP_pos_iff.mpr ⟨r, hr, hkr⟩
    have := h job.userId job.postId
    omega
  · rw [if_neg hany, List.countP_append]
    have hz : table.countP (fun r => keyMatches r job.userId job.postId) = 0 := by
      apply List.countP_eq_zero.mpr
      intro r hr
      exact List.any_eq_false.mp (Bool.eq_false_iff.mpr hany) r hr
    rw [hz]
    simp [List.countP_cons, keyMatches_newRow]

/-- Every row carrying the upserted key after `logDM` holds the values
of that call: `status`, `error_message` and `sent_at` are overwritten. -/
theorem logDM_fields (table : List DMLogRecord) (job : DMJob)
    (s e : String) (n : Nat) :
    ∀ r ∈ logDM table job s e n, keyMatches r job.userId job.postId = true →
      r.status = s ∧ r.errorMessage = e ∧ r.sentAt = n := by
  intro r hr hk
  unfold logDM at hr
  by_cases hany : table.any (fun r => keyMatches r job.userId job.postId) = true
  · rw [if_pos hany] at hr
    rcases List.mem_map.mp hr with ⟨x, hx, rfl⟩
    by_cases hkx : keyMatches x job.userId job.postId = true
    · simp [hkx]
    · simp only [hkx] at hk
      simp at hk
      exact absurd hk hkx
  · rw [if_neg hany] at hr
    rcases List.mem_append.mp hr with hrt | hrn
    · have := List.any_eq_false.mp (Bool.eq_false_iff.mpr hany) r hrt
      exact absurd hk this
    · rw [List.mem_singleton.mp hrn]
      exact ⟨rfl, rfl, rfl⟩

/-- Single-upsert retry-count monotonicity: any row matching a key after
`logDM` has at least the retry count of the row matching that key before. -/
theorem logDM_mono (table : List DMLogRecord) (job : DMJob) (s e : String)
    (n : Nat) (h : atMostOnePerKey table) (u p : String) {r r' : DMLogRecord}
    (hr : r ∈ table) (hkr : keyMatches r u p = true)
    (hr' : r' ∈ logDM table job s e n) (hkr' : keyMatches r' u p = true) :
    r.retryCount ≤ r'.retryCount := by
  unfold logDM at hr'
  by_cases hany : table.any (fun r => keyMatches r job.userId job.postId) = true
  · rw [if_pos hany] at hr'
    rcases List.mem_map.mp hr' with ⟨x, hx, rfl⟩
    by_cases hkx : keyMatches x job.userId job.postId = true
    · have hkxu : keyMatches x u p = true := by
        simp only [hkx] at hkr'
        simpa [keyMatches] using hkr'
      have hxr : x = r := countP_le_one_unique (h u p) hx hr hkxu hkr
      subst hxr
      simp [hkx]
    · have hkxu : keyMatches x u p = true := by simpa [hkx] using hkr'
      have hxr : x = r := countP_le_one_unique (h u p) hx hr hkxu hkr
      subst hxr
      simp [hkx]
  · rw [if_neg hany] at hr'
    rcases List.mem_append.mp hr' with hrt | hrn
    · have hxr : r' = r := countP_le_one_unique (h u p) hrt hr hkr' hkr
      rw [hxr]
    · exfalso
      rw [List.mem_singleton.mp hrn, keyMatches_newRow] at hkr'
      have h1 := (Bool.and_eq_true _ _).mp hkr'
      have hu : u = job.userId := (beq_iff_eq.mp h1.1).symm
      have hp : p = job.postId := (beq_iff_eq.mp h1.2).symm
      subst hu; subst hp
      have := List.any_eq_false.mp (Bool.eq_false_iff.mpr hany) r hr
      exact this hkr

/-- A row matching a key before `logDM` still has a matching row after,
with a retry count at least as large. -/
theorem logDM_exists_mono (table : List DMLogRecord) (job : DMJob)
    (s e : String) (n : Nat) (u p : String) {r : DMLogRecord}
    (hr : r ∈ table) (hkr : keyMatches r u p = true) :
    ∃ r' ∈ logDM table job s e n,
      keyMatches r' u p = true ∧ r.retryCount ≤ r'.retryCount := by
  unfold logDM
  by_cases hany : table.any (fun r => keyMatches r job.userId job.postId) = true
  · rw [if_pos hany]
    refine ⟨_, List.mem_map_of_mem _ hr, ?_⟩
    by_cases hkx : keyMatches r job.userId job.postId = true
    · constructor
      · simp only [hkx]
        simpa [keyMatches] using hkr
      · simp [hkx]
    · constructor
      · simpa [hkx] using hkr
      · simp [hkx]
  · rw [if_neg hany]
    exact ⟨r, List.mem_append.mpr (Or.inl hr), hkr, le_refl _⟩

/-- Retry-count monotonicity across any sequence of upserts. -/
theorem applyUpserts_mono :
    ∀ (ops : List UpsertOp) (table : List DMLogRecord), atMostOnePerKey table →
      ∀ (u p : String) (r : DMLogRecord), r ∈ table → keyMatches r u p = true →
        ∀ r' ∈ applyUpserts table ops, keyMatches r' u p = true →
          r.retryCount ≤ r'.retryCount := by
  intro ops
  induction ops with
  | nil =>
    intro table h u p r hr hkr r' hr' hkr'
    have : r = r' := countP_le_one_unique (h u p) hr hr' hkr hkr'
    rw [this]
  | cons op rest ih =>
    intro table h u p r hr hkr r' hr' hkr'
    rcases logDM_exists_mono table op.job op.status op.errMsg op.now u p hr hkr with
      ⟨r₁, hr₁, hk₁, hle₁⟩
    have h1 : atMostOnePerKey (logDM table op.job op.status op.errMsg op.now) :=
      logDM_atMostOne table op.job op.status op.errMsg op.now h
    exact le_trans hle₁ (ih _ h1 u p r₁ hr₁ hk₁ r' hr' hkr')

/-! ### Helper lemmas about the retry loop -/

/-- When every attempt in the window fails, the loop sleeps once per
attempt, with the backoff of that attempt index. -/
theorem retryGo_allFail_delays (dispatch : Nat → Option String) (b : Int) :
    ∀ (remaining attempt : Nat) (last : Option String),
      (∀ i, attempt ≤ i → i < attempt + remaining → (dispatch i).isSome) →
      (retryGo dispatch b attempt remaining last).2
        = (List.range' attempt remaining).map (backoffDelay b) := by
  intro remaining
  induction remaining with
  | zero => intro attempt last _; rfl
  | succ r ih =>
    intro attempt last h
    have hs : (dispatch attempt).isSome := h attempt (le_refl _) (by omega)
    rcases Option.isSome_iff_exists.mp hs with ⟨e, he⟩
    show (retryGo dispatch b attempt (r + 1) last).2 = _
    rw [retryGo, he]
    simp only
    rw [ih (attempt + 1) (some e) (fun i h1 h2 => h i (by omega) (by omega)),
      List.range'_succ]
    rfl

/-- When every attempt in the window fails, the loop's result is the
error of the final attempt. -/
theorem retryGo_allFail_result (dispatch : Nat → Option String) (b : Int) :
    ∀ (r attempt : Nat) (last : Option String),
      (∀ i, attempt ≤ i → i < attempt + (r + 1) → (dispatch i).isSome) →
      (retryGo dispatch b attempt (r + 1) last).1 = dispatch (attempt + r) := by
  intro r
  induction r with
  | zero =>
    intro attempt last h
    have hs : (dispatch attempt).isSome := h attempt (le_refl _) (by omega)
    rcases Option.isSome_iff_exists.mp hs with ⟨e, he⟩
    rw [retryGo, he]
    simp [retryGo, he]
  | succ r' ih =>
    intro attempt last h
    have hs : (dispatch attempt).isSome := h attempt (le_refl _) (by omega)
    rcases Option.isSome_iff_exists.mp hs with ⟨e, he⟩
    rw [retryGo, he]
    simp only
    rw [ih (attempt + 1) (some e) (fun i h1 h2 => h i (by omega) (by omega))]
    congr 1
    omega

/-- When the first success occurs at relative index `k` inside the
window, the loop returns success and makes exactly `k + 1` attempts. -/
theorem retryGo_success (dispatch : Nat → Option String) (b : Int) :
    ∀ (k remaining attempt : Nat) (last : Option String), k < remaining →
      dispatch (attempt + k) = none →
      (∀ i, i < k → (dispatch (attempt + i)).isSome) →
      (retryGo dispatch b attempt remaining last).1 = none ∧
      (retryGo dispatch b attempt remaining last).2
        = (List.range' attempt (k + 1)).map (backoffDelay b) := by
  intro k
  induction k with
  | zero =>
    intro remaining attempt last hlt hk _
    rcases Nat.exists_eq_add_of_lt hlt with ⟨r, hr⟩
    subst hr
    rw [Nat.add_comm 0 r] at *
    have h0 : dispatch attempt = none := by simpa using hk
    rw [show r + 1 = r + 1 from rfl, retryGo, h0]
    simp [List.range'_succ]
  | succ k' ih =>
    intro remaining attempt last hlt hk hfail
    rcases Nat.exists_eq_add_of_lt hlt with ⟨r, hr⟩
    subst hr
    have hs : (dispatch attempt).isSome := by
      have := hfail 0 (by omega)
      simpa using this
    rcases Option.isSome_iff_exists.mp hs with ⟨e, he⟩
    rw [retryGo, he]
    simp only
    have hk' : dispatch (attempt + 1 + k') = none := by
      rw [show attempt + 1 + k' = attempt + (k' + 1) by omega]
      exact hk
    have hfail' : ∀ i, i < k' → (dispatch (attempt + 1 + i)).isSome := by
      intro i hi
      rw [show attempt + 1 + i = attempt + (i + 1) by omega]
      exact hfail (i + 1) (by omega)
    rcases ih (k' + 1 + r) (attempt + 1) (some e) (by omega) hk' hfail' with ⟨h1, h2⟩
    constructor
    · exact h1
    · rw [h2, List.range'_succ]
      rfl

/-- Empty search pattern: every string contains the empty substring. -/
theorem containsSubChars_nil (l : List Char) : containsSubChars [] l = true := by
  cases l with
  | nil => rfl
  | cons c rest => simp [containsSubChars, isPrefixOfChars]

/-! ### Claim theorems -/

/-- Claim C1: two `logDM` upserts with the same (userId, postId) key
never leave two rows for that key — after the second call exactly one
row carries the key and its `status`, `errorMessage` and `sentAt` are
those of the second call — and `retryCount` is monotonically
non-decreasing across every sequence of upserts. -/
theorem logDM_upsert_merge_spec (table : List DMLogRecord) (job : DMJob)
    (s1 e1 : String) (t1 : Nat) (s2 e2 : String) (t2 : Nat)
    (h : atMostOnePerKey table) :
    ((logDM (logDM table job s1 e1 t1) job s2 e2 t2).countP
        (fun r => keyMatches r job.userId job.postId) = 1) ∧
    (∀ r ∈ logDM (logDM table job s1 e1 t1) job s2 e2 t2,
        keyMatches r job.userId job.postId = true →
        r.status = s2 ∧ r.errorMessage = e2 ∧ r.sentAt = t2) ∧
    (∀ (ops : List UpsertOp) (u p : String) (r r' : DMLogRecord),
        r ∈ table → keyMatches r u p = true →
        r' ∈ applyUpserts table ops → keyMatches r' u p = true →
        r.retryCount ≤ r'.retryCount) := by
  have h1 := logDM_atMostOne table job s1 e1 t1 h
  refine ⟨logDM_countKey _ job s2 e2 t2 h1, logDM_fields _ job s2 e2 t2, ?_⟩
  intro ops u p r r' hr hkr hr' hkr'
  exact applyUpserts_mono ops table h u p r hr hkr r' hr' hkr'

/-- Witness for C1 at a concrete table and job. -/
theorem logDM_upsert_merge_spec_witness :
    (logDM (logDM [] ⟨"123", "p1", "c1", "dm", "bob", 0⟩ "failed" "boom" 1)
        ⟨"123", "p1", "c1", "dm", "bob", 0⟩ "sent" "" 2).countP
      (fun r => keyMatches r "123" "p1") = 1 := by
  have hinv : atMostOnePerKey ([] : List DMLogRecord) := by
    intro u p
    simp [List.countP_nil]
  exact (logDM_upsert_merge_spec [] ⟨"123", "p1", "c1", "dm", "bob", 0⟩
    "failed" "boom" 1 "sent" "" 2 hinv).1

/-- Identity regime of the wrap: a nonnegative int64 value below
`2^63` is its own two's-complement representative. -/
theorem wrap64_eq_self {x : Int} (h0 : 0 ≤ x) (h1 : x < 2 ^ 63) :
    wrap64 x = x := by
  unfold wrap64
  have hm : x % 2 ^ 64 = x := Int.emod_eq_of_lt h0 (by omega)
  rw [hm, if_pos h1]

/-- Below the overflow threshold the wrapped, clamped backoff agrees
with the mathematical formula `b * 2^(attempt-1)`. -/
theorem backoffDelay_eq_of_no_overflow (b : Int) (k : Nat) (hb : 0 ≤ b)
    (h : b * 2 ^ k < 2 ^ 63) :
    backoffDelay b (k + 1) = b.toNat * 2 ^ k := by
  unfold backoffDelay
  rw [if_neg (Nat.succ_ne_zero k)]
  simp only [Nat.add_sub_cancel]
  rcases eq_or_lt_of_le hb with hb0 | hb1
  · rw [← hb0]
    simp [wrap64]
  · have h2k : (2 : Int) ^ k < 2 ^ 63 := by
      calc (2 : Int) ^ k = 1 * 2 ^ k := (one_mul _).symm
        _ ≤ b * 2 ^ k := mul_le_mul_of_nonneg_right (by omega) (by positivity)
        _ < 2 ^ 63 := h
    have hshl : goShl1 k = 2 ^ k := by
      unfold goShl1
      exact wrap64_eq_self (by positivity) h2k
    rw [hshl, wrap64_eq_self (mul_nonneg hb (by positivity)) h]
    have hcast : ((b.toNat * 2 ^ k : Nat) : Int) = b * 2 ^ k := by
      rw [Nat.cast_mul, Nat.cast_pow, Int.toNat_of_nonneg hb]
      norm_num
    rw [← hcast, Int.toNat_natCast]

/-- Below the overflow threshold the whole sleep schedule is
`0, b, 2b, 4b, ...`. -/
theorem delays_schedule_of_no_overflow (b : Int) (maxRetries : Nat)
    (hb : 0 ≤ b) (h : b * 2 ^ maxRetries < 2 ^ 63) :
    (List.range' 0 (maxRetries + 1)).map (backoffDelay b)
      = 0 :: (List.range maxRetries).map (fun i => b.toNat * 2 ^ i) := by
  rw [List.range'_succ]
  simp only [List.map_cons]
  have hh : backoffDelay b 0 = 0 := by simp [backoffDelay]
  have ht : (List.range' (0 + 1) maxRetries).map (backoffDelay b)
      = (List.range maxRetries).map (fun i => b.toNat * 2 ^ i) := by
    rw [List.range'_eq_map_range, List.map_map]
    apply List.map_congr_left
    intro i hi
    simp only [Function.comp_apply]
    rw [show 0 + 1 + i = i + 1 by omega]
    apply backoffDelay_eq_of_no_overflow b i hb
    calc b * 2 ^ i ≤ b * 2 ^ maxRetries := by
          apply mul_le_mul_of_nonneg_left _ hb
          exact pow_le_pow_right₀ (by norm_num) (le_of_lt (List.mem_range.mp hi))
      _ < 2 ^ 63 := h
  rw [hh, ht]

/-- Claim C2 as stated fails on the code: the sleep is computed in
int64, so with the hard-coded 2s base (2000000000 ns) and
`maxRetries = 34` — reachable, since MAX_RETRIES is user-configurable —
the product `2000000000 * (1 << 33)` wraps negative and `time.Sleep`
returns immediately: the sleep before the 34th retry is 0, not
`backoffBase * 2^33`. -/
theorem sendDMWithRetry_overflow_counterexample :
    (sendDMWithRetry 34 2000000000 (fun _ => some "e")).2.getLast? = some 0 ∧
    (sendDMWithRetry 34 2000000000 (fun _ => some "e")).2
      ≠ 0 :: (List.range 34).map (fun i => 2000000000 * 2 ^ i) := by decide

/-- Claim C2, amended: the retry controller makes exactly
`maxRetries + 1` attempts when every attempt fails and returns the last
observed error; on the first non-error dispatch it returns success with
no further attempts (`k + 1` attempts when the first success is attempt
`k`).  It sleeps 0 before the first attempt and, before the attempt-th
retry, the int64-wrapped product `backoffBase * (1 << (attempt-1))`
clamped at 0 — which equals `backoffBase * 2^(attempt-1)` (sleep list
`0, b, 2b, 4b, ...`) exactly while the products stay below `2^63`
nanoseconds, but not beyond (with the 2s base, from attempt 34 on). -/
theorem sendDMWithRetry_spec (maxRetries : Nat) (b : Int)
    (dispatch : Nat → Option String) :
    ((∀ i, i ≤ maxRetries → (dispatch i).isSome) →
      (sendDMWithRetry maxRetries b dispatch).2.length = maxRetries + 1 ∧
      (sendDMWithRetry maxRetries b dispatch).2
        = (List.range' 0 (maxRetries + 1)).map (backoffDelay b) ∧
      (sendDMWithRetry maxRetries b dispatch).1 = dispatch maxRetries) ∧
    (0 ≤ b → b * 2 ^ maxRetries < 2 ^ 63 →
      (List.range' 0 (maxRetries + 1)).map (backoffDelay b)
        = 0 :: (List.range maxRetries).map (fun i => b.toNat * 2 ^ i)) ∧
    (∀ k, k ≤ maxRetries → dispatch k = none →
      (∀ i, i < k → (dispatch i).isSome) →
      (sendDMWithRetry maxRetries b dispatch).1 = none ∧
      (sendDMWithRetry maxRetries b dispatch).2.length = k + 1) := by
  refine ⟨?_, delays_schedule_of_no_overflow b maxRetries, ?_⟩
  · intro h
    have hall : ∀ i, 0 ≤ i → i < 0 + (maxRetries + 1) → (dispatch i).isSome := by
      intro i _ hi
      exact h i (by omega)
    have hd := retryGo_allFail_delays dispatch b (maxRetries + 1) 0 none hall
    have hdel : (sendDMWithRetry maxRetries b dispatch).2
        = (List.range' 0 (maxRetries + 1)).map (backoffDelay b) := by
      unfold sendDMWithRetry
      rw [hd]
    refine ⟨?_, hdel, ?_⟩
    · rw [hdel, List.length_map, List.length_range']
    · have hres := retryGo_allFail_result dispatch b maxRetries 0 none hall
      unfold sendDMWithRetry
      rw [hres]
      congr 1
      omega
  · intro k hk hnone hfail
    have h0 : dispatch (0 + k) = none := by
      rw [Nat.zero_add]
      exact hnone
    have hf : ∀ i, i < k → (dispatch (0 + i)).isSome := by
      intro i hi
      rw [Nat.zero_add]
      exact hfail i hi
    rcases retryGo_success dispatch b k (maxRetries + 1) 0 none (by omega) h0 hf with
      ⟨h1, h2⟩
    refine ⟨h1, ?_⟩
    unfold sendDMWithRetry
    rw [h2, List.length_map, List.length_range']

/-- Witness for C2 (amended) with two retries, the 2s base in
nanoseconds and an always-failing dispatch, below the overflow
threshold. -/
theorem sendDMWithRetry_spec_witness :
    (sendDMWithRetry 2 2000000000 (fun _ => some "e")).2
      = (List.range' 0 3).map (backoffDelay 2000000000) ∧
    (List.range' 0 3).map (backoffDelay 2000000000)
      = 0 :: (List.range 2).map (fun i => (2000000000 : Int).toNat * 2 ^ i) ∧
    (sendDMWithRetry 2 2000000000 (fun _ => some "e")).1 = some "e" := by
  have h := sendDMWithRetry_spec 2 2000000000 (fun _ => some "e")
  have h1 := h.1 (fun _ _ => rfl)
  exact ⟨h1.2.1, h.2.1 (by decide) (by decide), h1.2.2⟩

/-- Claim C3 as stated fails on the code: a fresh always-failing job is
persisted with `retryCount = 0`, not 3 or 4 — the insert takes the
`retry_count` column default 0 and the `+ 1` fires only on later
conflicting upserts. -/
theorem failedJob_retryCount_counterexample :
    ((dmWorkerStep 3 2000000000 (fun _ => some "boom") []
        ⟨"123", "p1", "c1", "please dm", "bob", 0⟩ 9).1
      = [⟨"123", "p1", "c1", "failed", 0, "boom", 9⟩]) ∧
    ¬ (∃ r ∈ (dmWorkerStep 3 2000000000 (fun _ => some "boom") []
        ⟨"123", "p1", "c1", "please dm", "bob", 0⟩ 9).1,
        r.retryCount = 3 ∨ r.retryCount = 4) := by decide

/-- Claim C3, amended: with `maxRetries = 3` and the 2s backoff base
(2000000000 ns), a job whose dispatch always fails makes exactly 4
attempts with inter-attempt delays 0s, 2s, 4s, 8s; the single
DeliveryRecord then persisted has status `"failed"`, `errorMessage`
equal to the last attempt's error, and `retryCount = 0` (the insert's
column default — `retry_count` counts later upsert merges, not dispatch
attempts). -/
theorem failedJob_persisted_spec (dispatch : Nat → Option String)
    (e3 : String) (job : DMJob) (now : Nat)
    (hfail : ∀ i, i ≤ 3 → (dispatch i).isSome) (h3 : dispatch 3 = some e3) :
    (sendDMWithRetry 3 2000000000 dispatch).2
      = [0, 2000000000, 4000000000, 8000000000] ∧
    (dmWorkerStep 3 2000000000 dispatch [] job now).1
      = [⟨job.userId, job.postId, job.commentId, "failed", 0, e3, now⟩] ∧
    (dmWorkerStep 3 2000000000 dispatch [] job now).2 = [("failed", e3)] := by
  have hall : ∀ i, 0 ≤ i → i < 0 + 4 → (dispatch i).isSome := by
    intro i _ hi
    exact hfail i (by omega)
  have hd := retryGo_allFail_delays dispatch 2000000000 4 0 none hall
  have hres := retryGo_allFail_result dispatch 2000000000 3 0 none hall
  have hr3 : (sendDMWithRetry 3 2000000000 dispatch).1 = some e3 := by
    unfold sendDMWithRetry
    rw [hres, (by omega : 0 + 3 = 3), h3]
  refine ⟨?_, ?_, ?_⟩
  · unfold sendDMWithRetry
    rw [hd]
    decide
  · unfold dmWorkerStep
    rw [hr3]
    simp [logDM]
  · unfold dmWorkerStep
    rw [hr3]

/-- Witness for C3 (amended) with a concrete always-failing dispatch. -/
theorem failedJob_persisted_spec_witness :
    (sendDMWithRetry 3 2000000000 (fun _ => some "boom")).2
      = [0, 2000000000, 4000000000, 8000000000] :=
  (failedJob_persisted_spec (fun _ => some "boom") "boom"
    ⟨"123", "p1", "c1", "please dm", "bob", 0⟩ 9 (fun _ _ => rfl) rfl).1

/-- Claim C4 as stated fails on `main.go`: `handleWebhookEvent` answers
400 Bad Request — not a success status — on an unparsable body (while
still enqueueing nothing and writing nothing). -/
theorem parseFailure_counterexample :
    (handleWebhookEvent ["dm"] [] (Except.error "bad json") 0).1.statusCode = 400 ∧
    ¬ (handleWebhookEvent ["dm"] [] (Except.error "bad json") 0).1.statusCode
        = 200 := by decide

/-- Claim C4, amended: on a malformed or unparsable body the router
variant's `webhookPOSTHandler` answers 200 with no queue entry and no
persistence write, while `main.go`'s `handleWebhookEvent` answers 400
Bad Request, likewise with no queue entry and no persistence write. -/
theorem parseFailure_spec (keywords : List String) (table : List DMLogRecord)
    (msg : String) (now : Nat) :
    webhookPOSTHandler keywords table (Except.error msg) now
      = (⟨200, ""⟩, [], table) ∧
    handleWebhookEvent keywords table (Except.error msg) now
      = (⟨400, "Bad request\n"⟩, [], table) :=
  ⟨rfl, rfl⟩

/-- Claim C5: a matched CommentEvent with an existing DeliveryRecord
keyed by (authorId, postId) — whatever that record's status — is
dropped: nothing is enqueued; with no such record, exactly one
DispatchJob is enqueued. -/
theorem processComment_dedup_spec (keywords : List String)
    (table : List DMLogRecord) (c : CommentData) (now : Nat)
    (hmatch : hasKeyword keywords c.text = true) :
    ((∃ r ∈ table, keyMatches r c.fromUser.id c.mediaId = true) →
      processComment keywords table c now = []) ∧
    ((∀ r ∈ table, keyMatches r c.fromUser.id c.mediaId = false) →
      processComment keywords table c now = [mkJob c now]) := by
  constructor
  · intro hex
    have hdup : isDuplicate table c.fromUser.id c.mediaId = true := by
      simp only [isDuplicate, decide_eq_true_eq]
      exact List.countP_pos_iff.mpr hex
    simp [processComment, hmatch, hdup]
  · intro hnone
    have hdup : isDuplicate table c.fromUser.id c.mediaId = false := by
      simp only [isDuplicate, decide_eq_false_iff_not, Nat.not_lt,
        Nat.le_zero]
      apply List.countP_eq_zero.mpr
      intro r hr
      simp [hnone r hr]
    simp [processComment, hmatch, hdup]

/-- Witness for C5 at a concrete comment, with an existing `failed`
record and with an empty log. -/
theorem processComment_dedup_spec_witness :
    processComment ["dm"] [⟨"123", "p1", "c0", "failed", 0, "e", 1⟩]
        ⟨"c1", "p1", "please dm", ⟨"123", "bob"⟩⟩ 5 = [] ∧
    processComment ["dm"] [] ⟨"c1", "p1", "please dm", ⟨"123", "bob"⟩⟩ 5
      = [mkJob ⟨"c1", "p1", "please dm", ⟨"123", "bob"⟩⟩ 5] := by
  constructor
  · exact (processComment_dedup_spec ["dm"]
      [⟨"123", "p1", "c0", "failed", 0, "e", 1⟩]
      ⟨"c1", "p1", "please dm", ⟨"123", "bob"⟩⟩ 5 (by decide)).1
      ⟨⟨"123", "p1", "c0", "failed", 0, "e", 1⟩, by decide, by decide⟩
  · exact (processComment_dedup_spec ["dm"] []
      ⟨"c1", "p1", "please dm", ⟨"123", "bob"⟩⟩ 5 (by decide)).2
      (by intro r hr; cases hr)

/-- Claim C6 as stated fails on the code: status 204 is 2xx but the
router variant's `sendDM` classifies it a failure, and `main.go`'s
classifies 201 (also 2xx) a failure. -/
theorem dispatch_classify_counterexample :
    sendDM_v2 204 "" none ≠ none ∧ sendDM_v1 201 "" ≠ none := by decide

/-- Claim C6, amended: `main.go`'s dispatcher treats exactly status 200
as success and every other status (2xx included) as a generic API error
carrying the status code and body; the router variant treats exactly
200 and 201 as success, surfaces the code-10/subcode-2534022 body as
the distinguishable window-expired error, and every other failure as a
generic API error carrying the status code and body. -/
theorem dispatch_classify_spec (statusCode : Nat) (body : String)
    (platformErr : Option PlatformError) :
    (statusCode = 200 → sendDM_v1 statusCode body = none) ∧
    (statusCode ≠ 200 →
      sendDM_v1 statusCode body
        = some ("API error (status " ++ toString statusCode ++ "): " ++ body)) ∧
    (statusCode = 200 ∨ statusCode = 201 →
      sendDM_v2 statusCode body platformErr = none) ∧
    (statusCode ≠ 200 → statusCode ≠ 201 →
      (isWindowExpiredErr platformErr = true →
        sendDM_v2 statusCode body platformErr
          = some "24_hour_messaging_window_expired: User must message you first or within 24 hours") ∧
      (isWindowExpiredErr platformErr = false →
        sendDM_v2 statusCode body platformErr
          = some ("api_error_" ++ toString statusCode ++ ": " ++ body))) := by
  refine ⟨?_, ?_, ?_, ?_⟩
  · intro h
    simp [sendDM_v1, h]
  · intro h
    simp [sendDM_v1, h]
  · intro h
    rcases h with h | h <;> simp [sendDM_v2, h]
  · intro h1 h2
    constructor
    · intro hw
      cases platformErr with
      | none => simp [isWindowExpiredErr] at hw
      | some pe =>
        simp only [isWindowExpiredErr] at hw
        simp [sendDM_v2, h1, h2, hw]
    · intro hw
      cases platformErr with
      | none => simp [sendDM_v2, h1, h2]
      | some pe =>
        simp only [isWindowExpiredErr] at hw
        simp [sendDM_v2, h1, h2, hw]

/-- Witness for C6 (amended) at status 403 with the window-expired pair
and with a generic error body. -/
theorem dispatch_classify_spec_witness :
    sendDM_v2 403 "b" (some ⟨some 10, some 2534022⟩)
      = some "24_hour_messaging_window_expired: User must message you first or within 24 hours" ∧
    sendDM_v1 200 "ok" = none := by
  constructor
  · exact ((dispatch_classify_spec 403 "b" (some ⟨some 10, some 2534022⟩)).2.2.2
      (by decide) (by decide)).1 (by decide)
  · exact (dispatch_classify_spec 200 "ok" none).1 rfl

/-- Claim C7: a CommentEvent whose lower-cased text contains none of the
configured keywords is dropped with no side effects — `processComment`
enqueues nothing, and a webhook delivery carrying only that comment
yields no job and leaves the persistence log unchanged. -/
theorem processComment_noKeyword_spec (keywords : List String)
    (table : List DMLogRecord) (c : CommentData) (now : Nat)
    (obj eid : String) (t : Int)
    (h : ∀ kw ∈ keywords, goContains (goToLower c.text) kw = false) :
    processComment keywords table c now = [] ∧
    webhookPOSTHandler keywords table
        (Except.ok ⟨obj, [⟨eid, t, [⟨"comments", c⟩]⟩]⟩) now
      = (⟨200, ""⟩, [], table) ∧
    handleWebhookEvent keywords table
        (Except.ok ⟨obj, [⟨eid, t, [⟨"comments", c⟩]⟩]⟩) now
      = (⟨200, "EVENT_RECEIVED"⟩, [], table) := by
  have hkw : hasKeyword keywords c.text = false := by
    unfold hasKeyword
    apply List.any_eq_false.mpr
    intro kw hkwm
    simp [h kw hkwm]
  have hpc : processComment keywords table c now = [] := by
    simp [processComment, hkw]
  refine ⟨hpc, ?_, ?_⟩
  · simp [webhookPOSTHandler, processEntries, hpc]
  · simp [handleWebhookEvent, processEntries, hpc]

/-- Witness for C7 at a concrete keyword-free comment. -/
theorem processComment_noKeyword_spec_witness :
    processComment ["dm"] [] ⟨"c1", "p1", "hello there", ⟨"123", "bob"⟩⟩ 5
      = [] :=
  (processComment_noKeyword_spec ["dm"] []
    ⟨"c1", "p1", "hello there", ⟨"123", "bob"⟩⟩ 5 "instagram" "e1" 0
    (by intro kw hkw
        rw [List.mem_singleton.mp hkw]
        decide)).1

/-- Claim C8: each job consumed from the queue causes exactly one
DeliveryRecord write — `("sent", "")` when the retry sequence succeeded,
`("failed", lastErr)` when it exhausted its attempts — and the table
update is exactly that one `logDM` upsert. -/
theorem dmWorkerStep_spec (maxRetries b : Nat)
    (dispatch : Nat → Option String) (table : List DMLogRecord)
    (job : DMJob) (now : Nat) :
    (dmWorkerStep maxRetries b dispatch table job now).2.length = 1 ∧
    ((sendDMWithRetry maxRetries b dispatch).1 = none →
      dmWorkerStep maxRetries b dispatch table job now
        = (logDM table job "sent" "" now, [("sent", "")])) ∧
    (∀ e, (sendDMWithRetry maxRetries b dispatch).1 = some e →
      dmWorkerStep maxRetries b dispatch table job now
        = (logDM table job "failed" e now, [("failed", e)])) := by
  refine ⟨?_, ?_, ?_⟩
  · unfold dmWorkerStep
    cases (sendDMWithRetry maxRetries b dispatch).1 <;> simp
  · intro h
    unfold dmWorkerStep
    rw [h]
  · intro e h
    unfold dmWorkerStep
    rw [h]

/-- Witness for C8 with a dispatch that succeeds immediately. -/
theorem dmWorkerStep_spec_witness :
    dmWorkerStep 3 2 (fun _ => none) [] ⟨"123", "p1", "c1", "dm", "bob", 0⟩ 9
      = (logDM [] ⟨"123", "p1", "c1", "dm", "bob", 0⟩ "sent" "" 9,
         [("sent", "")]) :=
  (dmWorkerStep_spec 3 2 (fun _ => none) []
    ⟨"123", "p1", "c1", "dm", "bob", 0⟩ 9).2.1 rfl

/-- Claim C9 as stated fails on the code: `main.go`'s verification
handler answers 403 with body `"Verification failed\n"` (not empty), and
the router variant refuses the challenge echo when the supplied and
configured tokens are both empty even though they are equal and the mode
is `subscribe`. -/
theorem verification_counterexample :
    ((handleWebhookVerification "tok" "subscribe" "wrong" "abc123").body ≠ "") ∧
    (webhookGETHandler "" "subscribe" "" "abc123"
      = ⟨403, ""⟩) := by decide

/-- Claim C9, amended: `main.go`'s handler echoes the challenge with 200
iff mode is `subscribe` and the supplied token equals the configured
one, answering 403 with body `"Verification failed\n"` otherwise; the
router variant echoes the challenge iff additionally the supplied token
is nonempty, answering 403 with an empty body otherwise. -/
theorem verification_spec (verifyToken mode token challenge : String) :
    (handleWebhookVerification verifyToken mode token challenge
      = if mode = "subscribe" ∧ token = verifyToken then ⟨200, challenge⟩
        else ⟨403, "Verification failed\n"⟩) ∧
    (webhookGETHandler verifyToken mode token challenge
      = if mode = "subscribe" ∧ token ≠ "" ∧ token = verifyToken then
          ⟨200, challenge⟩
        else ⟨403, ""⟩) := by
  constructor
  · unfold handleWebhookVerification
    by_cases h1 : mode = "subscribe" <;> by_cases h2 : token = verifyToken <;>
      simp [h1, h2]
  · unfold webhookGETHandler
    by_cases h1 : mode = "subscribe" <;> by_cases h2 : token = verifyToken <;>
      by_cases h3 : token = "" <;> simp [h1, h2, h3]

/-- Claim C10: with the `KEYWORDS` environment variable unset or empty,
splitting on commas yields exactly one empty-string keyword, and since
every lower-cased text contains the empty substring, every CommentEvent
matches — the keyword filter is disabled rather than dropping all
events. -/
theorem emptyKeywords_spec (text : String) :
    keywordsFromEnv "" = [""] ∧
    hasKeyword (keywordsFromEnv "") text = true := by
  refine ⟨by decide, ?_⟩
  have h : keywordsFromEnv "" = [""] := by decide
  rw [h]
  unfold hasKeyword
  simp only [List.any_cons, List.any_nil, Bool.or_false]
  unfold goContains
  rw [show ("" : String).data = [] from rfl]
  exact containsSubChars_nil _

end AutoDM
